import Mathlib

/-!
Verification development for the mushroom binary-classification web app
(`app.py`).  The app's orchestration logic is shallowly embedded here:

* the dataset loader / per-column label encoding (`load_data`),
* its memoization (`load_data_cached`, modelling the `st.cache` decorator),
* the 70/30 train/test split (`split`),
* the metric computations displayed after a Classify action
  (`accuracy_score`, `precision_score`, `recall_score`, numpy `round(2)`),
* the diagnostic-plot selection (`plot_metrics`),
* the three classifier branches of `main`, modelled as an event trace
  (`mainTrace`).

External libraries (pandas, scikit-learn, streamlit) are embedded by their
documented behaviour at the call sites the app uses; each definition's doc
comment records the correspondence.  Machine floats are modelled by exact
rationals.
-/

/-- A cell value of a pandas dataframe/series as it occurs in this app:
either a raw categorical string or an integer label code. -/
inductive Val where
  | str (s : String)
  | int (n : Nat)
deriving DecidableEq, Repr

/-- The raw CSV table (`mushrooms.csv`): named columns, rows of strings. -/
structure RawFrame where
  cols : List String
  rows : List (List String)
deriving DecidableEq, Repr

/-- An encoded pandas dataframe: same column names, cells are `Val`s. -/
structure DataFrame where
  cols : List String
  rows : List (List Val)
deriving DecidableEq, Repr

/-- The label column name used by `split` (`df.type`). -/
def typeLabel : String := "type"

/-- The class-name strings of `app.py` line 70. -/
def edibleLabel : String := "edible"

/-- Second entry of `class_names` at `app.py` line 70. -/
def poisonousLabel : String := "poisonous"

/-- `class_names = ['edible', 'poisonous']` (`app.py` line 70). -/
def class_names : List String := [edibleLabel, poisonousLabel]

/-- The `labels=class_names` argument passed to `precision_score` and
`recall_score`, as values comparable with the entries of `y_test`. -/
def labelsArg : List Val := class_names.map Val.str

/-- Lexicographic comparison of character lists by code point. -/
def strLeAux : List Char → List Char → Bool
  | [], _ => true
  | _ :: _, [] => false
  | a :: as, b :: bs =>
      if a.toNat < b.toNat then true
      else if b.toNat < a.toNat then false
      else strLeAux as bs

/-- Lexicographic string comparison by code point (the order `numpy.unique`
sorts encoder classes by). -/
def strLe (a b : String) : Bool := strLeAux a.data b.data

/-- The classes a fitted `sklearn.preprocessing.LabelEncoder` assigns to a
column: the distinct observed values in sorted order (`numpy.unique`). -/
def classesOf (column : List String) : List String :=
  column.dedup.insertionSort (fun a b => strLe a b = true)

/-- `LabelEncoder.transform` of one value: its index among the sorted
distinct values of the column the encoder was fit on. -/
def encodeVal (column : List String) (v : String) : Nat :=
  (classesOf column).indexOf v

/-- Placeholder for a missing cell; a parsed CSV is rectangular, so it is
never used on real data. -/
def missingCell : String := ""

/-- The values of column `j` of the raw table (`data[col]`). -/
def columnVals (rows : List (List String)) (j : Nat) : List String :=
  rows.map (fun r => r.getD j missingCell)

/-- Encode the cells of one row, the cell in column `j` with the encoder
fit on column `j` (the loop `for col in data.columns: data[col] =
label.fit_transform(data[col])`, `app.py` lines 38-39, viewed row-wise). -/
def encodeRowAux (rows : List (List String)) (j : Nat) : List String → List Val
  | [] => []
  | v :: rest => Val.int (encodeVal (columnVals rows j) v) :: encodeRowAux rows (j + 1) rest

/-- Encode a full row starting at column 0. -/
def encodeRow (rows : List (List String)) (r : List String) : List Val :=
  encodeRowAux rows 0 r

/-- `load_data` (`app.py` lines 35-40): read the CSV and label-encode every
column in place.  The file read itself is the `RawFrame` argument. -/
def load_data (raw : RawFrame) : DataFrame :=
  ⟨raw.cols, raw.rows.map (encodeRow raw.rows)⟩

/-- State of the `@st.cache(persist=True)` memoization of `load_data`:
the cached table, if any, and how many times the source file was read. -/
structure CacheState where
  cached : Option DataFrame
  fileReads : Nat
deriving DecidableEq, Repr

/-- One call of the cached `load_data`: `st.cache` memoization semantics —
on a hit return the cached table untouched, on a miss read and encode the
file, count the read, and store the result. -/
def load_data_cached (raw : RawFrame) (s : CacheState) : DataFrame × CacheState :=
  match s.cached with
  | some df => (df, s)
  | none =>
      let df := load_data raw
      (df, ⟨some df, s.fileReads + 1⟩)

/-- Error taxonomy of the spec that the orchestration can raise. -/
inductive AppError where
  | invalidSchemaError
deriving DecidableEq, Repr

/-- The four arrays returned by `split` (`app.py` line 48-49). -/
structure SplitResult where
  xTrain : List (List Val)
  xTest : List (List Val)
  yTrain : List Val
  yTest : List Val
deriving DecidableEq, Repr

/-- Number of test rows chosen by `sklearn.model_selection.train_test_split`
for `test_size=0.3`: `ceil(0.3 * n)`. -/
def testCount (n : Nat) : Nat := (3 * n + 9) / 10

/-- `split` (`app.py` lines 45-49): `y = df.type` fails when no column is
named `type` (the spec's `InvalidSchemaError`); otherwise drop that column
to form the features and call `train_test_split(x, y, test_size=0.3,
random_state=0)`.  The library's seed-0 row permutation is internal to
scikit-learn and is modelled as the identity permutation (test set = first
`testCount n` rows); every property stated below is invariant under the
choice of permutation. -/
def split (df : DataFrame) : Except AppError SplitResult :=
  match df.cols.findIdx? (fun c => c == typeLabel) with
  | none => .error .invalidSchemaError
  | some t =>
      let y := df.rows.map (fun r => r.getD t (Val.int 0))
      let x := df.rows.map (fun r => r.eraseIdx t)
      let k := testCount df.rows.length
      .ok ⟨x.drop k, x.take k, y.drop k, y.take k⟩

/-- Mean accuracy `model.score(x_test, y_test)` =
`accuracy_score(y_test, model.predict(x_test))`: the fraction of positions
where prediction and truth agree (0 on an empty test set). -/
def accuracy_score (yTrue yPred : List Val) : ℚ :=
  ((yTrue.zip yPred).countP (fun p => decide (p.1 = p.2)) : ℚ) /
    ((yTrue.zip yPred).length : ℚ)

/-- `precision_score(y_test, y_pred, labels=class_names)` with the default
`average="binary"`, `pos_label=1`: for a binary integer target sklearn's
`_check_set_wise_labels` replaces the `labels` argument by `[pos_label]`,
so the string labels passed by the app are ignored and the score is
`tp / (tp + fp)` for positive class `1`, and `0.0` when nothing is
predicted positive (default `zero_division`). -/
def precision_score (yTrue yPred : List Val) : ℚ :=
  if (yTrue.zip yPred).countP (fun p => decide (p.2 = Val.int 1)) = 0 then 0
  else
    ((yTrue.zip yPred).countP (fun p => decide (p.1 = Val.int 1 ∧ p.2 = Val.int 1)) : ℚ) /
      ((yTrue.zip yPred).countP (fun p => decide (p.2 = Val.int 1)) : ℚ)

/-- `recall_score(y_test, y_pred, labels=class_names)` under the same
binary-averaging semantics: `tp / (tp + fn)` for positive class `1`,
`0.0` when no true positives exist. -/
def recall_score (yTrue yPred : List Val) : ℚ :=
  if (yTrue.zip yPred).countP (fun p => decide (p.1 = Val.int 1)) = 0 then 0
  else
    ((yTrue.zip yPred).countP (fun p => decide (p.1 = Val.int 1 ∧ p.2 = Val.int 1)) : ℚ) /
      ((yTrue.zip yPred).countP (fun p => decide (p.1 = Val.int 1)) : ℚ)

/-- Round to the nearest integer, ties to even (numpy rounding). -/
def roundHalfEven (q : ℚ) : ℤ :=
  if q - (⌊q⌋ : ℚ) < 1 / 2 then ⌊q⌋
  else if 1 / 2 < q - (⌊q⌋ : ℚ) then ⌊q⌋ + 1
  else if ⌊q⌋ % 2 = 0 then ⌊q⌋ else ⌊q⌋ + 1

/-- Numpy `.round(2)` applied to each displayed metric. -/
def round2 (q : ℚ) : ℚ := (roundHalfEven (100 * q) : ℚ) / 100

/-- Metric-selection option strings of the `multiselect` widget. -/
def cmLabel : String := "Confusion Matrix"

/-- Second metric-selection option string. -/
def rocLabel : String := "ROC Curve"

/-- Third metric-selection option string. -/
def prLabel : String := "Precision-Recall Curve"

/-- `plot_metrics` (`app.py` lines 52-64): three successive membership
tests on the user's selection, each rendering one plot; the result is the
list of rendered plots in program order. -/
def plot_metrics (metricsList : List String) : List String :=
  (if cmLabel ∈ metricsList then [cmLabel] else []) ++
  (if rocLabel ∈ metricsList then [rocLabel] else []) ++
  (if prLabel ∈ metricsList then [prLabel] else [])

/-- A Python value passed as a keyword argument to a model constructor
(only the shapes this app can produce). -/
inductive PyVal where
  | pyBool (b : Bool)
  | pyStr (s : String)
deriving DecidableEq, Repr

/-- Python truthiness of such a value (`bool(x)`): a string is truthy
exactly when it is non-empty. -/
def truthy : PyVal → Bool
  | .pyBool b => b
  | .pyStr s => !(s == "")

/-- The `SVC(C=C, kernel=kernel, gamma=gamma)` configuration. -/
structure SVCModel where
  C : ℚ
  kernel : String
  gamma : String
deriving DecidableEq, Repr

/-- The `LogisticRegression(C=C, max_iter=max_iter)` configuration. -/
structure LogisticRegressionModel where
  C : ℚ
  max_iter : Nat
deriving DecidableEq, Repr

/-- The `RandomForestClassifier(n_estimators=..., max_depth=...,
bootstrap=..., n_jobs=-1)` configuration. -/
structure RandomForestClassifierModel where
  n_estimators : Nat
  max_depth : Nat
  bootstrap : PyVal
  n_jobs : Int
deriving DecidableEq, Repr

/-- `app.py` line 138: the value bound to `bootstrap` comes straight from
`st.sidebar.radio(..., ("True", "False"))`, so the constructor receives
the selected *string*, not a boolean. -/
def buildRandomForest (nEst maxDepth : Nat) (bootstrapChoice : String) :
    RandomForestClassifierModel :=
  ⟨nEst, maxDepth, .pyStr bootstrapChoice, -1⟩

/-- A constructed model instance of one of the three families. -/
inductive Model where
  | svc (m : SVCModel)
  | logReg (m : LogisticRegressionModel)
  | randomForest (m : RandomForestClassifierModel)
deriving DecidableEq, Repr

/-- Observable steps of one script run of `main`, in program order. -/
inductive Event where
  | titleShown (s : String)
  | dataLoaded
  | errorRaised (e : AppError)
  | subheaderShown (s : String)
  | modelConstructed (m : Model)
  | modelFitted
  | metricShown (name : String) (value : ℚ)
  | plotRendered (p : String)
  | rawShown
deriving DecidableEq, Repr

/-- UI option string of the SVM classifier family. -/
def svmLabel : String := "Support Vector Machine (SVM)"

/-- UI option string of the logistic-regression family. -/
def lrLabel : String := "Logistic Regression"

/-- UI option string of the random-forest family. -/
def rfLabel : String := "Random Forest"

/-- Display name of the accuracy metric line. -/
def accuracyLabel : String := "Accuracy"

/-- Display name of the precision metric line. -/
def precisionLabel : String := "Precision"

/-- Display name of the recall metric line. -/
def recallLabel : String := "Recall"

/-- App title shown at the top of the page and sidebar. -/
def appTitle : String := "Binary Classification Web App"

/-- The widget selections of one interaction, as read back from the
sidebar by `main` (the widget declarations themselves render controls and
return these values). -/
structure Inputs where
  raw : RawFrame
  classifier : String
  svmC : ℚ
  svmKernel : String
  svmGamma : String
  lrC : ℚ
  lrMaxIter : Nat
  rfNEstimators : Nat
  rfMaxDepth : Nat
  rfBootstrap : String
  metrics : List String
  classifyPressed : Bool
  showRaw : Bool

/-- Suffix of the per-family results subheader. -/
def resultsSuffix : String := " Results"

/-- The three `st.write` metric lines of a Classify branch (`app.py`
lines 94-98): accuracy, precision, recall, each rounded to 2 decimals. -/
def metricEvents (yTest yPred : List Val) : List Event :=
  [.metricShown accuracyLabel (round2 (accuracy_score yTest yPred)),
   .metricShown precisionLabel (round2 (precision_score yTest yPred)),
   .metricShown recallLabel (round2 (recall_score yTest yPred))]

/-- One Classify branch body: results subheader, model construction,
`model.fit`, the three metric lines, then `plot_metrics(metrics)`.
`predict` is the fitted model's black-box prediction function. -/
def classifyEvents (family : String) (m : Model) (s : SplitResult)
    (predict : List (List Val) → List Val) (metrics : List String) : List Event :=
  [.subheaderShown (family ++ resultsSuffix), .modelConstructed m, .modelFitted] ++
  metricEvents s.yTest (predict s.xTest) ++
  (plot_metrics metrics).map .plotRendered

/-- One run of `main` (`app.py` lines 25-153) as its event trace: titles,
`load_data`, `split` (whose failure aborts the script), then the three
classifier branches guarded by the selected family and the Classify
button, then the raw-data checkbox.  `predict` stands for the fitted
model of whichever branch runs. -/
def mainTrace (predict : List (List Val) → List Val) (inp : Inputs) : List Event :=
  match split (load_data inp.raw) with
  | .error e => [.titleShown appTitle, .dataLoaded, .errorRaised e]
  | .ok s =>
      [Event.titleShown appTitle, .dataLoaded] ++
      (if inp.classifier = svmLabel then
        (if inp.classifyPressed then
          classifyEvents svmLabel (.svc ⟨inp.svmC, inp.svmKernel, inp.svmGamma⟩)
            s predict inp.metrics
         else [])
       else []) ++
      (if inp.classifier = lrLabel then
        (if inp.classifyPressed then
          classifyEvents lrLabel (.logReg ⟨inp.lrC, inp.lrMaxIter⟩)
            s predict inp.metrics
         else [])
       else []) ++
      (if inp.classifier = rfLabel then
        (if inp.classifyPressed then
          classifyEvents rfLabel
            (.randomForest (buildRandomForest inp.rfNEstimators inp.rfMaxDepth inp.rfBootstrap))
            s predict inp.metrics
         else [])
       else []) ++
      (if inp.showRaw then [.rawShown] else [])

/-- Test for a plot-rendering event. -/
def isPlotEvent : Event → Bool
  | .plotRendered _ => true
  | .titleShown _ => false
  | .dataLoaded => false
  | .errorRaised _ => false
  | .subheaderShown _ => false
  | .modelConstructed _ => false
  | .modelFitted => false
  | .metricShown _ _ => false
  | .rawShown => false

/-- Test for the model-fitting event. -/
def isFitEvent : Event → Bool
  | .modelFitted => true
  | .titleShown _ => false
  | .dataLoaded => false
  | .errorRaised _ => false
  | .subheaderShown _ => false
  | .modelConstructed _ => false
  | .plotRendered _ => false
  | .metricShown _ _ => false
  | .rawShown => false

/-- Scan of a trace: `true` iff before the first `plotRendered` event (if
any) a `modelFitted` event occurs — i.e. every rendered plot is preceded
by a model fit. -/
def guarded : List Event → Bool
  | [] => true
  | e :: rest => if isPlotEvent e then false else if isFitEvent e then true else guarded rest

/-- Every metric value displayed in a trace lies in the unit interval. -/
def metricsBounded (l : List Event) : Prop :=
  ∀ (name : String) (v : ℚ), Event.metricShown name v ∈ l → 0 ≤ v ∧ v ≤ 1

/-- Radio-button string for disabling bootstrap sampling. -/
def falseChoice : String := "False"

/-- Radio-button string for enabling bootstrap sampling. -/
def trueChoice : String := "True"

/-- Feature-column name of the small concrete dataset used as witness. -/
def odorLabel : String := "odor"

/-- A categorical feature value of the witness dataset. -/
def odorA : String := "a"

/-- A categorical feature value of the witness dataset. -/
def odorB : String := "b"

/-- A categorical feature value of the witness dataset. -/
def odorC : String := "c"

/-- A small concrete raw table in the shape of `mushrooms.csv`: a `type`
label column over {edible, poisonous} and one categorical feature. -/
def raw0 : RawFrame :=
  ⟨[typeLabel, odorLabel],
   [[poisonousLabel, odorA], [edibleLabel, odorB], [edibleLabel, odorA],
    [poisonousLabel, odorC], [edibleLabel, odorB], [poisonousLabel, odorA],
    [edibleLabel, odorC], [edibleLabel, odorA], [poisonousLabel, odorB],
    [edibleLabel, odorA]]⟩

/-- The value of `split (load_data raw0)` (10 rows, 3 of them test). -/
def splitRaw0 : SplitResult :=
  ⟨[[Val.int 2], [Val.int 1], [Val.int 0], [Val.int 2], [Val.int 0],
    [Val.int 1], [Val.int 0]],
   [[Val.int 0], [Val.int 1], [Val.int 0]],
   [Val.int 1, Val.int 0, Val.int 1, Val.int 0, Val.int 0, Val.int 1, Val.int 0],
   [Val.int 1, Val.int 0, Val.int 0]⟩

/-- A concrete black-box prediction function: predicts the witness test
labels exactly. -/
def predict0 : List (List Val) → List Val :=
  fun _ => [Val.int 1, Val.int 0, Val.int 0]

/-- Concrete interaction: SVM family, Classify pressed, confusion-matrix
plot selected. -/
def inpSVM : Inputs :=
  ⟨raw0, svmLabel, 1, "rbf", "scale", 1, 100, 100, 5, trueChoice,
   [cmLabel], true, false⟩

/-- A raw table without a `type` column. -/
def rawNoType : RawFrame := ⟨[odorLabel], [[odorA], [odorB]]⟩

/-- Concrete interaction on the schema-violating table. -/
def inpNoType : Inputs :=
  ⟨rawNoType, svmLabel, 1, "rbf", "scale", 1, 100, 100, 5, trueChoice,
   [cmLabel], true, false⟩

/-- Indexed characterization of row encoding: the cell at offset `i` of a
row encoded from column `j` onward is the code of the raw cell, taken in
column `j + i`. -/
theorem encodeRowAux_getElem (rows : List (List String)) (r : List String) :
    ∀ (j i : Nat), (encodeRowAux rows j r)[i]? =
      Option.map (fun v => Val.int (encodeVal (columnVals rows (j + i)) v)) r[i]? := by
  induction r with
  | nil => intro j i; simp [encodeRowAux]
  | cons v rest ih =>
      intro j i
      cases i with
      | zero => simp [encodeRowAux]
      | succ i2 =>
          have h3 : j + 1 + i2 = j + (i2 + 1) := by omega
          simp only [encodeRowAux, List.getElem?_cons_succ, ih (j + 1) i2, h3]

/-- A cell of a row of the table occurs among its column's values. -/
theorem mem_columnVals (rows : List (List String)) (r : List String) (j : Nat) (v : String)
    (hr : r ∈ rows) (hv : r[j]? = some v) : v ∈ columnVals rows j := by
  have hg : r.getD j missingCell = v := by
    rw [List.getD_eq_getElem?_getD, hv]; rfl
  exact hg ▸ List.mem_map_of_mem (fun r => r.getD j missingCell) hr

/-- A label code is below the number of distinct values of its column. -/
theorem encodeVal_lt_card (column : List String) (v : String) (hv : v ∈ column) :
    encodeVal column v < column.dedup.length := by
  have hmem : v ∈ classesOf column := by
    have hd : v ∈ column.dedup := List.mem_dedup.mpr hv
    exact ((List.perm_insertionSort _ column.dedup).mem_iff).mpr hd
  have hlen : (classesOf column).length = column.dedup.length :=
    (List.perm_insertionSort _ column.dedup).length_eq
  have hidx := List.indexOf_lt_length.mpr hmem
  simpa [encodeVal, hlen] using hidx

/-- Every cell produced by the row encoder is an integer code. -/
theorem mem_encodeRowAux_int (rows : List (List String)) (r : List String) :
    ∀ (j : Nat) (v : Val), v ∈ encodeRowAux rows j r → ∃ n, v = Val.int n := by
  induction r with
  | nil => intro j v hv; simp [encodeRowAux] at hv
  | cons a rest ih =>
      intro j v hv
      rcases (by simpa [encodeRowAux] using hv :
          v = Val.int (encodeVal (columnVals rows j) a) ∨ v ∈ encodeRowAux rows (j + 1) rest)
        with h | h
      · exact ⟨_, h⟩
      · exact ih (j + 1) v h

/-- C5: every value of every column of the table returned by `load_data`
is an integer code in `[0, k-1]` for `k` the number of distinct raw values
observed in that column, and within one load the same raw value in the
same column always receives the same code. -/
theorem encoded_column_values_in_range (raw : RawFrame) (r : List String) (j : Nat) (v : String)
    (hr : r ∈ raw.rows) (hv : r[j]? = some v) :
    (encodeRow raw.rows r)[j]? = some (Val.int (encodeVal (columnVals raw.rows j) v)) ∧
    encodeVal (columnVals raw.rows j) v < (columnVals raw.rows j).dedup.length ∧
    (∀ r2 ∈ raw.rows, r2[j]? = some v →
      (encodeRow raw.rows r2)[j]? = (encodeRow raw.rows r)[j]?) := by
  have hcell : (encodeRow raw.rows r)[j]? =
      some (Val.int (encodeVal (columnVals raw.rows j) v)) := by
    have h1 := encodeRowAux_getElem raw.rows r 0 j
    rw [encodeRow, h1, hv]
    simp
  refine ⟨hcell, encodeVal_lt_card _ _ (mem_columnVals raw.rows r j v hr hv), ?_⟩
  intro r2 _ hv2
  have h2 := encodeRowAux_getElem raw.rows r2 0 j
  rw [encodeRow, h2, hv2, hcell]
  simp

/-- Witness for C5 on the concrete mushroom-shaped table. -/
theorem encoded_column_values_in_range_witness :
    (([poisonousLabel, odorA] : List String) ∈ raw0.rows) ∧
    (([poisonousLabel, odorA] : List String)[0]? = some poisonousLabel) ∧
    ((encodeRow raw0.rows [poisonousLabel, odorA])[0]? =
        some (Val.int (encodeVal (columnVals raw0.rows 0) poisonousLabel)) ∧
      encodeVal (columnVals raw0.rows 0) poisonousLabel <
        (columnVals raw0.rows 0).dedup.length ∧
      (∀ r2 ∈ raw0.rows, r2[0]? = some poisonousLabel →
        (encodeRow raw0.rows r2)[0]? =
          (encodeRow raw0.rows [poisonousLabel, odorA])[0]?)) :=
  ⟨by decide, by decide,
   encoded_column_values_in_range raw0 [poisonousLabel, odorA] 0 poisonousLabel
     (by decide) (by decide)⟩

/-- C1: the `labels=class_names` argument of the precision/recall calls
does not denote the classes present in `y_test` — on an encoded dataset
the test label vector holds integer codes, and the two string class names
never occur in it (the two lists are disjoint). -/
theorem precision_labels_disjoint_from_test_labels :
    split (load_data raw0) = Except.ok splitRaw0 ∧
    splitRaw0.yTest ≠ [] ∧
    (∀ v ∈ splitRaw0.yTest, v ∉ labelsArg) ∧
    (∀ c ∈ labelsArg, c ∉ splitRaw0.yTest) :=
  ⟨by rfl, by decide, by decide, by decide⟩

/-- C2: the value handed to the `bootstrap` keyword of the random-forest
constructor is the radio widget's string, not a boolean: when the user
picks the `False` option the model is configured with the string
`"False"`, which is not the boolean `false` and is truthy in Python. -/
theorem bootstrap_argument_is_string :
    (buildRandomForest 100 5 falseChoice).bootstrap = PyVal.pyStr falseChoice ∧
    (buildRandomForest 100 5 falseChoice).bootstrap ≠ PyVal.pyBool false ∧
    (buildRandomForest 100 5 falseChoice).bootstrap ≠ PyVal.pyBool true ∧
    truthy (buildRandomForest 100 5 falseChoice).bootstrap = true :=
  ⟨rfl, by decide, by decide, by decide⟩

/-- C6: `plot_metrics` renders exactly the selected plots, always in the
fixed order Confusion Matrix, ROC Curve, Precision-Recall Curve. -/
theorem plot_metrics_fixed_order (S : List String) :
    plot_metrics S = List.filter (fun p => decide (p ∈ S)) [cmLabel, rocLabel, prLabel] := by
  by_cases h1 : cmLabel ∈ S <;> by_cases h2 : rocLabel ∈ S <;> by_cases h3 : prLabel ∈ S <;>
    simp [plot_metrics, h1, h2, h3]

/-- C8: calling the cached loader a second time returns the identical
table and leaves the cache state (in particular the number of source-file
reads) unchanged. -/
theorem load_data_cached_second_call_hits_cache (raw : RawFrame) (s0 : CacheState) :
    (load_data_cached raw (load_data_cached raw s0).2).1 = (load_data_cached raw s0).1 ∧
    (load_data_cached raw (load_data_cached raw s0).2).2 = (load_data_cached raw s0).2 ∧
    (load_data_cached raw (load_data_cached raw s0).2).2.fileReads =
      (load_data_cached raw s0).2.fileReads := by
  cases h : s0.cached <;> simp [load_data_cached, h]

/-- C10: after `load_data` and `split`, the label vectors contain only
integer codes; the raw class-name strings never occur in them. -/
theorem label_vectors_integer_coded (raw : RawFrame) (s : SplitResult)
    (h : split (load_data raw) = Except.ok s) (v : Val)
    (hv : v ∈ s.yTrain ∨ v ∈ s.yTest) :
    (∃ n, v = Val.int n) ∧ v ≠ Val.str edibleLabel ∧ v ≠ Val.str poisonousLabel := by
  have hint : ∃ n, v = Val.int n := by
    cases hf : (load_data raw).cols.findIdx? (fun c => c == typeLabel) with
    | none => rw [split, hf] at h; exact absurd h (by simp)
    | some t =>
        rw [split, hf] at h
        have hs := Except.ok.inj h
        have hy : v ∈ (load_data raw).rows.map (fun r => r.getD t (Val.int 0)) := by
          rcases hv with hv | hv
          · have := hs ▸ hv
            exact List.mem_of_mem_drop (by simpa using this)
          · have := hs ▸ hv
            exact List.mem_of_mem_take (by simpa using this)
        rcases List.mem_map.mp hy with ⟨r2, hr2, hval⟩
        rcases List.mem_map.mp (by simpa [load_data] using hr2) with ⟨r3, _, hr3⟩
        cases hq : r2[t]? with
        | none =>
            have hd : r2.getD t (Val.int 0) = Val.int 0 := by
              rw [List.getD_eq_getElem?_getD, hq]; rfl
            exact ⟨0, by rw [← hval, hd]⟩
        | some w =>
            have hgd : r2.getD t (Val.int 0) = w := by
              rw [List.getD_eq_getElem?_getD, hq]; rfl
            have hw : w ∈ r2 := List.getElem?_mem hq
            rw [← hr3] at hw
            rcases mem_encodeRowAux_int raw.rows r3 0 w
                (by simpa [encodeRow] using hw) with ⟨n, hn⟩
            exact ⟨n, by rw [← hval, hgd, hn]⟩
  rcases hint with ⟨n, rfl⟩
  exact ⟨⟨n, rfl⟩, by simp, by simp⟩

/-- Witness for C10 on the concrete table. -/
theorem label_vectors_integer_coded_witness :
    split (load_data raw0) = Except.ok splitRaw0 ∧
    (Val.int 1 ∈ splitRaw0.yTrain ∨ Val.int 1 ∈ splitRaw0.yTest) ∧
    ((∃ n, Val.int 1 = Val.int n) ∧ Val.int 1 ≠ Val.str edibleLabel ∧
      Val.int 1 ≠ Val.str poisonousLabel) :=
  ⟨by rfl, Or.inl (by decide),
   label_vectors_integer_coded raw0 splitRaw0 (by rfl) (Val.int 1) (Or.inl (by decide))⟩

/-- The test split never exceeds the row count. -/
theorem testCount_le (n : Nat) : testCount n ≤ n := by
  unfold testCount; omega

/-- C3: an accepted split partitions all rows, and the test fraction is
0.3 up to the rounding forced by an integer row count. -/
theorem split_partition_sizes (df : DataFrame) (s : SplitResult)
    (h : split df = Except.ok s) (hpos : 0 < df.rows.length) :
    s.xTrain.length + s.xTest.length = df.rows.length ∧
    |(s.xTest.length : ℚ) / (df.rows.length : ℚ) - 3 / 10| < 1 / (df.rows.length : ℚ) := by
  cases hf : df.cols.findIdx? (fun c => c == typeLabel) with
  | none => rw [split, hf] at h; exact absurd h (by simp)
  | some t =>
      rw [split, hf] at h
      have hs := Except.ok.inj h
      subst hs
      have hxlen : (df.rows.map (fun r => r.eraseIdx t)).length = df.rows.length :=
        List.length_map _ _
      have hk : testCount df.rows.length ≤ df.rows.length := testCount_le _
      have hxtest : (List.take (testCount df.rows.length)
          (df.rows.map (fun r => r.eraseIdx t))).length = testCount df.rows.length := by
        simp only [List.length_take, hxlen]
        omega
      constructor
      · simp only [List.length_take, List.length_drop, hxlen]
        omega
      · rw [hxtest]
        have h1 : 3 * df.rows.length ≤ 10 * testCount df.rows.length := by
          unfold testCount; omega
        have h2 : 10 * testCount df.rows.length ≤ 3 * df.rows.length + 9 := by
          unfold testCount; omega
        have hnq : (0 : ℚ) < (df.rows.length : ℚ) := by exact_mod_cast hpos
        have hq1 : (3 : ℚ) * (df.rows.length : ℚ) ≤ 10 * (testCount df.rows.length : ℚ) := by
          exact_mod_cast h1
        have hq2 : (10 : ℚ) * (testCount df.rows.length : ℚ) ≤
            3 * (df.rows.length : ℚ) + 9 := by exact_mod_cast h2
        have hne : (df.rows.length : ℚ) ≠ 0 := ne_of_gt hnq
        have heq : (testCount df.rows.length : ℚ) / (df.rows.length : ℚ) - 3 / 10 =
            (10 * (testCount df.rows.length : ℚ) - 3 * (df.rows.length : ℚ)) /
              (10 * (df.rows.length : ℚ)) := by
          field_simp
          ring
        rw [heq, abs_of_nonneg (div_nonneg (by linarith) (by positivity))]
        rw [div_lt_div_iff₀ (by positivity) hnq]
        nlinarith [hnq, hq2]

/-- Witness for C3 on the concrete table (10 rows, 3 test). -/
theorem split_partition_sizes_witness :
    split (load_data raw0) = Except.ok splitRaw0 ∧ 0 < (load_data raw0).rows.length ∧
    (splitRaw0.xTrain.length + splitRaw0.xTest.length = (load_data raw0).rows.length ∧
     |(splitRaw0.xTest.length : ℚ) / ((load_data raw0).rows.length : ℚ) - 3 / 10| <
       1 / ((load_data raw0).rows.length : ℚ)) :=
  ⟨by rfl, by decide, split_partition_sizes (load_data raw0) splitRaw0 (by rfl) (by decide)⟩

/-- C4: with no `type` column, `split` fails with the schema error, the
run's trace records that failure, and no model is ever constructed. -/
theorem missing_type_column_halts_before_model
    (predict : List (List Val) → List Val) (inp : Inputs)
    (h : typeLabel ∉ inp.raw.cols) :
    split (load_data inp.raw) = Except.error AppError.invalidSchemaError ∧
    Event.errorRaised AppError.invalidSchemaError ∈ mainTrace predict inp ∧
    ∀ m : Model, Event.modelConstructed m ∉ mainTrace predict inp := by
  have hf : (load_data inp.raw).cols.findIdx? (fun c => c == typeLabel) = none := by
    rw [List.findIdx?_eq_none_iff]
    intro x hx
    have hx2 : x ∈ inp.raw.cols := by simpa [load_data] using hx
    have hne : x ≠ typeLabel := fun he => h (he ▸ hx2)
    simpa using hne
  have hsplit : split (load_data inp.raw) = Except.error AppError.invalidSchemaError := by
    rw [split, hf]
  refine ⟨hsplit, ?_, ?_⟩
  · unfold mainTrace
    rw [hsplit]
    simp
  · intro m
    unfold mainTrace
    rw [hsplit]
    simp

/-- Witness for C4 on a table without the label column. -/
theorem missing_type_column_halts_before_model_witness :
    typeLabel ∉ inpNoType.raw.cols ∧
    (split (load_data inpNoType.raw) = Except.error AppError.invalidSchemaError ∧
     Event.errorRaised AppError.invalidSchemaError ∈ mainTrace predict0 inpNoType ∧
     ∀ m : Model, Event.modelConstructed m ∉ mainTrace predict0 inpNoType) :=
  ⟨by decide, missing_type_column_halts_before_model predict0 inpNoType (by decide)⟩

/-- Mean test accuracy lies in the unit interval. -/
theorem accuracy_score_bounds (a b : List Val) :
    0 ≤ accuracy_score a b ∧ accuracy_score a b ≤ 1 := by
  unfold accuracy_score
  constructor
  · positivity
  · rcases Nat.eq_zero_or_pos (a.zip b).length with h0 | hp
    · rw [h0]
      norm_num
    · have hle : (a.zip b).countP (fun p => decide (p.1 = p.2)) ≤ (a.zip b).length :=
        List.countP_le_length _
      rw [div_le_one (by exact_mod_cast hp)]
      exact_mod_cast hle

/-- Binary precision lies in the unit interval. -/
theorem precision_score_bounds (a b : List Val) :
    0 ≤ precision_score a b ∧ precision_score a b ≤ 1 := by
  unfold precision_score
  split_ifs with h
  · norm_num
  · constructor
    · positivity
    · have hmono : (a.zip b).countP (fun p => decide (p.1 = Val.int 1 ∧ p.2 = Val.int 1)) ≤
          (a.zip b).countP (fun p => decide (p.2 = Val.int 1)) := by
        apply List.countP_mono_left
        intro x _ hx
        simp only [decide_eq_true_eq] at hx ⊢
        exact hx.2
      have hp : 0 < (a.zip b).countP (fun p => decide (p.2 = Val.int 1)) :=
        Nat.pos_of_ne_zero h
      rw [div_le_one (by exact_mod_cast hp)]
      exact_mod_cast hmono

/-- Binary recall lies in the unit interval. -/
theorem recall_score_bounds (a b : List Val) :
    0 ≤ recall_score a b ∧ recall_score a b ≤ 1 := by
  unfold recall_score
  split_ifs with h
  · norm_num
  · constructor
    · positivity
    · have hmono : (a.zip b).countP (fun p => decide (p.1 = Val.int 1 ∧ p.2 = Val.int 1)) ≤
          (a.zip b).countP (fun p => decide (p.1 = Val.int 1)) := by
        apply List.countP_mono_left
        intro x _ hx
        simp only [decide_eq_true_eq] at hx ⊢
        exact hx.1
      have hp : 0 < (a.zip b).countP (fun p => decide (p.1 = Val.int 1)) :=
        Nat.pos_of_ne_zero h
      rw [div_le_one (by exact_mod_cast hp)]
      exact_mod_cast hmono

/-- Round-half-to-even stays within `[0, 100]` on `[0, 100]`. -/
theorem roundHalfEven_bounds (x : ℚ) (h0 : 0 ≤ x) (h1 : x ≤ 100) :
    0 ≤ roundHalfEven x ∧ roundHalfEven x ≤ 100 := by
  have hf0 : 0 ≤ ⌊x⌋ := Int.floor_nonneg.mpr h0
  have hf100 : ⌊x⌋ ≤ 100 := by
    have h2 : ⌊x⌋ ≤ ⌊(100 : ℚ)⌋ := Int.floor_le_floor h1
    have h3 : ⌊(100 : ℚ)⌋ = 100 := by norm_num
    omega
  unfold roundHalfEven
  split_ifs with ha hb hc
  · exact ⟨hf0, hf100⟩
  · push_neg at ha
    have hfx : (⌊x⌋ : ℚ) ≤ x := Int.floor_le x
    have hlt : (⌊x⌋ : ℚ) < 100 := by linarith
    have hlt2 : ⌊x⌋ < 100 := by exact_mod_cast hlt
    exact ⟨by omega, by omega⟩
  · exact ⟨hf0, hf100⟩
  · push_neg at ha
    have hfx : (⌊x⌋ : ℚ) ≤ x := Int.floor_le x
    have hlt : (⌊x⌋ : ℚ) < 100 := by linarith
    have hlt2 : ⌊x⌋ < 100 := by exact_mod_cast hlt
    exact ⟨by omega, by omega⟩

/-- Two-decimal display rounding stays within the unit interval. -/
theorem round2_bounds (q : ℚ) (h0 : 0 ≤ q) (h1 : q ≤ 1) :
    0 ≤ round2 q ∧ round2 q ≤ 1 := by
  have h := roundHalfEven_bounds (100 * q) (by linarith) (by linarith)
  unfold round2
  constructor
  · have hn : (0 : ℚ) ≤ (roundHalfEven (100 * q) : ℚ) := by exact_mod_cast h.1
    exact div_nonneg hn (by norm_num)
  · rw [div_le_one (by norm_num)]
    exact_mod_cast h.2

/-- Every metric value of a Classify branch is one of the three rounded
scores of the test split. -/
theorem metricShown_value_in_classify (family : String) (m : Model) (s : SplitResult)
    (predict : List (List Val) → List Val) (metrics : List String) (name : String) (v : ℚ)
    (h : Event.metricShown name v ∈ classifyEvents family m s predict metrics) :
    v = round2 (accuracy_score s.yTest (predict s.xTest)) ∨
    v = round2 (precision_score s.yTest (predict s.xTest)) ∨
    v = round2 (recall_score s.yTest (predict s.xTest)) := by
  simp [classifyEvents, metricEvents] at h
  rcases h with ⟨_, h⟩ | ⟨_, h⟩ | ⟨_, h⟩
  · exact Or.inl h
  · exact Or.inr (Or.inl h)
  · exact Or.inr (Or.inr h)

/-- The empty trace displays no metrics. -/
theorem metricsBounded_nil : metricsBounded [] := by
  intro name v h
  simp at h

/-- Boundedness is preserved by trace concatenation. -/
theorem metricsBounded_append (l1 l2 : List Event)
    (h1 : metricsBounded l1) (h2 : metricsBounded l2) : metricsBounded (l1 ++ l2) := by
  intro name v h
  rcases List.mem_append.mp h with h | h
  · exact h1 name v h
  · exact h2 name v h

/-- Boundedness is preserved by a conditional branch. -/
theorem metricsBounded_ite (c : Prop) [Decidable c] (l : List Event)
    (hl : metricsBounded l) : metricsBounded (if c then l else []) := by
  split_ifs
  · exact hl
  · exact metricsBounded_nil

/-- Every metric value a Classify branch displays is in `[0, 1]`. -/
theorem metricsBounded_classify (family : String) (m : Model) (s : SplitResult)
    (predict : List (List Val) → List Val) (metrics : List String) :
    metricsBounded (classifyEvents family m s predict metrics) := by
  intro name v h
  rcases metricShown_value_in_classify family m s predict metrics name v h with h1 | h1 | h1 <;>
    subst h1
  · exact round2_bounds _ (accuracy_score_bounds _ _).1 (accuracy_score_bounds _ _).2
  · exact round2_bounds _ (precision_score_bounds _ _).1 (precision_score_bounds _ _).2
  · exact round2_bounds _ (recall_score_bounds _ _).1 (recall_score_bounds _ _).2

/-- Every metric value in any run's trace is in `[0, 1]`. -/
theorem metricsBounded_mainTrace (predict : List (List Val) → List Val) (inp : Inputs) :
    metricsBounded (mainTrace predict inp) := by
  cases hs : split (load_data inp.raw) with
  | error e =>
      intro name v h
      unfold mainTrace at h
      rw [hs] at h
      simp at h
  | ok s =>
      unfold mainTrace
      rw [hs]
      refine metricsBounded_append _ _ (metricsBounded_append _ _ (metricsBounded_append _ _
        (metricsBounded_append _ _ ?_ ?_) ?_) ?_) ?_
      · intro name v h
        simp at h
      · exact metricsBounded_ite _ _ (metricsBounded_ite _ _ (metricsBounded_classify _ _ _ _ _))
      · exact metricsBounded_ite _ _ (metricsBounded_ite _ _ (metricsBounded_classify _ _ _ _ _))
      · exact metricsBounded_ite _ _ (metricsBounded_ite _ _ (metricsBounded_classify _ _ _ _ _))
      · refine metricsBounded_ite _ _ ?_
        intro name v h
        simp at h

/-- C7: every displayed metric value (accuracy, precision, recall), after
display rounding, lies in the closed interval `[0, 1]`. -/
theorem displayed_metric_values_bounded (predict : List (List Val) → List Val) (inp : Inputs)
    (name : String) (v : ℚ) (h : Event.metricShown name v ∈ mainTrace predict inp) :
    0 ≤ v ∧ v ≤ 1 :=
  metricsBounded_mainTrace predict inp name v h

/-- Witness for C7: the accuracy line of a concrete SVM run. -/
theorem displayed_metric_values_bounded_witness :
    Event.metricShown accuracyLabel
        (round2 (accuracy_score splitRaw0.yTest (predict0 splitRaw0.xTest))) ∈
      mainTrace predict0 inpSVM ∧
    (0 ≤ round2 (accuracy_score splitRaw0.yTest (predict0 splitRaw0.xTest)) ∧
      round2 (accuracy_score splitRaw0.yTest (predict0 splitRaw0.xTest)) ≤ 1) := by
  have hmem : Event.metricShown accuracyLabel
      (round2 (accuracy_score splitRaw0.yTest (predict0 splitRaw0.xTest))) ∈
      mainTrace predict0 inpSVM := by
    have htr : mainTrace predict0 inpSVM =
        [Event.titleShown appTitle, Event.dataLoaded,
         Event.subheaderShown (svmLabel ++ resultsSuffix),
         Event.modelConstructed (Model.svc ⟨inpSVM.svmC, inpSVM.svmKernel, inpSVM.svmGamma⟩),
         Event.modelFitted,
         Event.metricShown accuracyLabel
           (round2 (accuracy_score splitRaw0.yTest (predict0 splitRaw0.xTest))),
         Event.metricShown precisionLabel
           (round2 (precision_score splitRaw0.yTest (predict0 splitRaw0.xTest))),
         Event.metricShown recallLabel
           (round2 (recall_score splitRaw0.yTest (predict0 splitRaw0.xTest))),
         Event.plotRendered cmLabel] := rfl
    rw [htr]
    simp
  exact ⟨hmem, displayed_metric_values_bounded predict0 inpSVM accuracyLabel _ hmem⟩

/-- A guarded trace has a fit event before every plot event. -/
theorem guarded_spec : ∀ (l : List Event), guarded l = true →
    ∀ (i : Nat) (p : String), l[i]? = some (Event.plotRendered p) →
    ∃ j, j < i ∧ l[j]? = some Event.modelFitted := by
  intro l
  induction l with
  | nil => intro _ i p h; simp at h
  | cons e rest ih =>
      intro hg i p h
      by_cases hplot : isPlotEvent e = true
      · simp [guarded, hplot] at hg
      · by_cases hfit : isFitEvent e = true
        · have he : e = Event.modelFitted := by
            cases e <;> simp [isFitEvent] at hfit ⊢
          subst he
          cases i with
          | zero => simp at h
          | succ i2 => exact ⟨0, by omega, by simp⟩
        · have hg2 : guarded rest = true := by
            simpa [guarded, hplot, hfit] using hg
          cases i with
          | zero =>
              have he : e = Event.plotRendered p := by simpa using h
              rw [he] at hplot
              simp [isPlotEvent] at hplot
          | succ i2 =>
              have h2 : rest[i2]? = some (Event.plotRendered p) := by simpa using h
              rcases ih hg2 i2 p h2 with ⟨j, hj, hjl⟩
              exact ⟨j + 1, by omega, by simpa using hjl⟩

/-- Every run's trace is guarded: plots can only follow a model fit. -/
theorem guarded_mainTrace (predict : List (List Val) → List Val) (inp : Inputs) :
    guarded (mainTrace predict inp) = true := by
  cases hs : split (load_data inp.raw) with
  | error e =>
      unfold mainTrace
      rw [hs]
      rfl
  | ok s =>
      unfold mainTrace
      rw [hs]
      split_ifs <;>
        simp [classifyEvents, metricEvents, guarded, isPlotEvent, isFitEvent]

/-- C9: in every run, any rendered plot is strictly preceded in the trace
by the fitting of a model — `plot_metrics` is unreachable before a model
has been constructed and fitted. -/
theorem plot_events_preceded_by_fit (predict : List (List Val) → List Val) (inp : Inputs)
    (i : Nat) (p : String)
    (h : (mainTrace predict inp)[i]? = some (Event.plotRendered p)) :
    ∃ j, j < i ∧ (mainTrace predict inp)[j]? = some Event.modelFitted :=
  guarded_spec (mainTrace predict inp) (guarded_mainTrace predict inp) i p h

/-- Witness for C9: the confusion-matrix plot of a concrete SVM run. -/
theorem plot_events_preceded_by_fit_witness :
    (mainTrace predict0 inpSVM)[8]? = some (Event.plotRendered cmLabel) ∧
    ∃ j, j < 8 ∧ (mainTrace predict0 inpSVM)[j]? = some Event.modelFitted :=
  ⟨by decide, plot_events_preceded_by_fit predict0 inpSVM 8 cmLabel (by decide)⟩
